import Mathlib

/-!
Verification of the gnomecast transcode-and-stream engine.

The definitions below are a shallow embedding of the Python sources:
 * `src/gnomecast/devices.py` (device capability lookup),
 * `src/gnomecast/ffmpeg.py`  (`parse_ffmpeg_time`),
 * `src/gnomecast/main.py`    (`Transcoder`: compatibility decision,
   command construction, progress monitor, `wait_for_byte`, `destroy`).

Python strings are modelled as `String`/`List Char`, Python `int` as `Int`,
Python `float` as `ℚ` (the decimal arithmetic performed by the program is
exact on the inputs considered), and fallible operations (Python
exceptions) as `Option`/flagged results.
-/

namespace Gnomecast

/-! ### Python string primitives, modelled over `List Char` -/

/-- Python whitespace, as matched by `str.split()` and the regex class. -/
def isPyWs (c : Char) : Bool :=
  c = ' ' || c = '\t' || c = '\n' || c = '\r' || c = '\x0b' || c = '\x0c'

/-- ASCII lowering, modelling `str.lower()` on the ASCII inputs involved. -/
def pyLowerChar (c : Char) : Char :=
  if 'A' ≤ c ∧ c ≤ 'Z' then Char.ofNat (c.toNat + 32) else c

/-- Model of `str.split(sep)` for a one-character separator: keeps empty pieces. -/
def splitOnChar (sep : Char) : List Char → List (List Char)
  | [] => [[]]
  | c :: rest =>
    if c = sep then [] :: splitOnChar sep rest
    else
      match splitOnChar sep rest with
      | h :: t => (c :: h) :: t
      | [] => [[c]]

/-- Split at every character satisfying `p`, keeping empty pieces. -/
def splitOnPred (p : Char → Bool) : List Char → List (List Char)
  | [] => [[]]
  | c :: rest =>
    if p c then [] :: splitOnPred p rest
    else
      match splitOnPred p rest with
      | h :: t => (c :: h) :: t
      | [] => [[c]]

/-- Python `str.split()` with no argument: split on whitespace runs,
dropping empty pieces. -/
def pySplitWs (l : List Char) : List (List Char) :=
  (splitOnPred isPyWs l).filter (fun s => !s.isEmpty)

/-- The substitution `re.sub(r"=\s+", "=", line)`: every `=` followed by a
maximal run of whitespace is replaced by a bare `=`.  The boolean state is
true while the scanner sits right after an `=` (skipping its whitespace). -/
def reSubEqAux : Bool → List Char → List Char
  | _, [] => []
  | true, c :: rest =>
    if isPyWs c then reSubEqAux true rest
    else if c = '=' then '=' :: reSubEqAux true rest
    else c :: reSubEqAux false rest
  | false, c :: rest =>
    if c = '=' then '=' :: reSubEqAux true rest
    else c :: reSubEqAux false rest

def reSubEq (l : List Char) : List Char := reSubEqAux false l

/-- Model of `str.rstrip("kib")`: drop trailing characters drawn from `k`, `i`, `b`. -/
def rstripKib (l : List Char) : List Char :=
  (l.reverse.dropWhile (fun c => c = 'k' || c = 'i' || c = 'b')).reverse

/-- Strip leading and trailing Python whitespace. -/
def stripWs (l : List Char) : List Char :=
  ((l.dropWhile isPyWs).reverse.dropWhile isPyWs).reverse

/-- Decimal digits accumulated into a natural number (value of a digit
string; `0` for the empty string). -/
def natOfDigits : Nat → List Char → Nat
  | acc, [] => acc
  | acc, c :: rest => natOfDigits (10 * acc + (c.toNat - 48)) rest

/-- Python `int(s)` on a decimal string: surrounding whitespace allowed,
optional sign, at least one digit; `none` models `ValueError`. -/
def parsePyInt (l : List Char) : Option Int :=
  let go : List Char → Option Nat := fun ds =>
    if ds.all Char.isDigit && !ds.isEmpty then some (natOfDigits 0 ds) else none
  match stripWs l with
  | '-' :: rest => (go rest).map (fun n => -(n : Int))
  | '+' :: rest => (go rest).map (fun n => (n : Int))
  | rest => (go rest).map (fun n => (n : Int))

/-- Unsigned decimal literal with optional fractional part, as accepted by
Python `float()` on the inputs involved; the value is exact in `ℚ`. -/
def parsePosDec (l : List Char) : Option ℚ :=
  let ip := l.takeWhile (fun c => !(c = '.'))
  match l.dropWhile (fun c => !(c = '.')) with
  | [] =>
    if ip.all Char.isDigit && !ip.isEmpty then some ((natOfDigits 0 ip : ℚ)) else none
  | _ :: frac =>
    if ip.all Char.isDigit && frac.all Char.isDigit && !(ip.isEmpty && frac.isEmpty)
    then some ((natOfDigits 0 ip : ℚ) + (natOfDigits 0 frac : ℚ) / ((10 : ℚ) ^ frac.length))
    else none

/-- Python `float(s)`: whitespace stripped, optional sign, decimal literal;
`none` models `ValueError`. -/
def parsePyFloat (l : List Char) : Option ℚ :=
  match stripWs l with
  | '-' :: rest => (parsePosDec rest).map (fun q => -q)
  | '+' :: rest => parsePosDec rest
  | rest => parsePosDec rest

/-! ### `ffmpeg.py`: `parse_ffmpeg_time` -/

/-- Model of `parse_ffmpeg_time` of `ffmpeg.py`: split on `:`, require exactly three
float components, value `hours*60*60 + minutes*60 + seconds`; `none` models
the exception raised on any other shape. -/
def parse_ffmpeg_timeL (l : List Char) : Option ℚ :=
  match (splitOnChar ':' l).map parsePyFloat with
  | [some h, some m, some s] => some (h * 60 * 60 + m * 60 + s)
  | _ => none

def parse_ffmpeg_time (s : String) : Option ℚ := parse_ffmpeg_timeL s.toList

/-! ### `devices.py` -/

structure Device where
  manufacturer : String
  model_name : String
  h265 : Bool
  ac3 : Bool
deriving DecidableEq

/-- The `_devices` table of `devices.py`. -/
def _devices : List Device :=
  [ ⟨"Unknown manufacturer", "Chromecast", false, false⟩,
    ⟨"Unknown manufacturer", "Chromecast Ultra", true, true⟩,
    ⟨"Unknown manufacturer", "Google Home Mini", false, false⟩,
    ⟨"VIZIO", "P75-F1", true, true⟩ ]

/-- Model of `get_device` of `devices.py`: first table entry matching both fields,
else the default device with both capabilities off. -/
def get_device (manufacturer model_name : String) : Device :=
  match _devices.find? (fun d => d.manufacturer == manufacturer && d.model_name == model_name) with
  | some d => d
  | none => ⟨"Unknown manufacturer", "Default", false, false⟩

/-! ### `main.py`: the compatibility decision of `Transcoder.__init__` -/

def AUDIO_EXTS : List String := ["aac", "mp3", "wav"]

structure AudioStream where
  index : String
  codec : String
  channels : Int
deriving DecidableEq

/-- Model of `fmd.container not in ("mp4", "aac", "mp3", "wav")`. -/
def transcode_container (container : String) : Bool :=
  !(decide (container ∈ ["mp4", "aac", "mp3", "wav"]))

/-- Model of `Transcoder.can_play_video_codec`. -/
def can_play_video_codec (cast_type : String) (device_h265 : Bool) (video_codec : String) : Bool :=
  let h265 := if cast_type = "audio" then false else device_h265
  if h265 then decide (video_codec ∈ ["h264", "h265", "hevc"])
  else decide (video_codec ∈ ["h264"])

/-- Model of `self.transcode_video = not self.can_play_video_codec(video_stream.codec)`. -/
def transcode_video (cast_type : String) (device_h265 : Bool) (video_codec : String) : Bool :=
  !(can_play_video_codec cast_type device_h265 video_codec)

/-- Model of `Transcoder.can_play_audio_stream`. -/
def can_play_audio_stream (device_ac3 : Bool) (stream : Option AudioStream) : Bool :=
  match stream with
  | none => true
  | some s =>
    if device_ac3 then decide (s.codec ∈ ["aac", "mp3", "ac3"])
    else decide (s.codec ∈ ["aac", "mp3"])

/-- Model of `self.transcode_audio = fmd.container not in AUDIO_EXTS or not
self.can_play_audio_stream(self.audio_stream)`. -/
def transcode_audio (container : String) (device_ac3 : Bool) (stream : Option AudioStream) : Bool :=
  !(decide (container ∈ AUDIO_EXTS)) || !(can_play_audio_stream device_ac3 stream)

/-! ### `main.py`: audio target codec and the ffmpeg command -/

/-- Model of `transcode_audio_to = "ac3" if self.device.ac3 and audio_stream and
audio_stream.channels > 2 else "mp3"`. -/
def transcode_audio_to (device_ac3 : Bool) (audio_stream : Option AudioStream) : String :=
  if device_ac3 && (match audio_stream with
                    | some s => decide (s.channels > 2)
                    | none => false)
  then "ac3" else "mp3"

/-- The `self.transcode_cmd` list built in `Transcoder.__init__` (the
transcode branch): source, video map, optional audio map with codec and
bitrate, video codec, output path. -/
def transcode_cmd (source_fn video_index : String) (audio_stream : Option AudioStream)
    (device_ac3 ta tv : Bool) (trans_fn : String) : List String :=
  ["ffmpeg", "-i", source_fn, "-map", video_index] ++
  (match audio_stream with
   | some s =>
     ["-map", s.index, "-c:a",
      if ta then transcode_audio_to device_ac3 audio_stream else "copy"] ++
     (if ta then ["-b:a", "256k"] else [])
   | none => []) ++
  ["-c:v", if tv then "h264" else "copy"] ++ [trans_fn]

/-! ### `main.py`: the observable outcome of `Transcoder.__init__` -/

structure JobView where
  done : Bool
  callback_invoked : Bool
  fn : String
  trans_fn : Option String
deriving DecidableEq

/-- The observable state of a freshly constructed `Transcoder`: the decision
flags are computed from the probed metadata and the device looked up from
the cast info; if any flag is set a temp output is allocated and the job
starts not-done, otherwise the job is born done, the done-callback has been
invoked synchronously, and the `fn` property is the source path. -/
def transcoderInit (cast_type manufacturer model_name : String)
    (container video_codec : String) (audio_stream : Option AudioStream)
    (source_fn tmp_fn : String) : JobView :=
  let device := get_device manufacturer model_name
  let tc := transcode_container container
  let tv := transcode_video cast_type device.h265 video_codec
  let ta := transcode_audio container device.ac3 audio_stream
  if tc || tv || ta then
    { done := false, callback_invoked := false, fn := tmp_fn, trans_fn := some tmp_fn }
  else
    { done := true, callback_invoked := true, fn := source_fn, trans_fn := none }

/-! ### `main.py`: the monitor's progress update -/

structure Progress where
  progress_bytes : Int
  progress_seconds : ℚ
deriving DecidableEq

/-- Keep only the length-2 `key=value` splits, as `dict([x for x in items
if len(x) == 2])` does. -/
def pairsOf : List (List (List Char)) → List (List Char × List Char)
  | [] => []
  | [k, v] :: rest => (k, v) :: pairsOf rest
  | _ :: rest => pairsOf rest

/-- Model of `dict(...)` lookup with default: Python dicts keep the last binding of a
repeated key. -/
def dictGet (prs : List (List Char × List Char)) (k dflt : List Char) : List Char :=
  match prs.reverse.find? (fun p => p.1 == k) with
  | some p => p.2
  | none => dflt

/-- The token dictionary built by `Transcoder.monitor` from one
carriage-return-terminated update: collapse `=`-whitespace, split on
whitespace, split each token on `=`, keep the length-2 pairs. -/
def monitorDict (line : List Char) : List (List Char × List Char) :=
  pairsOf ((pySplitWs (reSubEq line)).map (splitOnChar '='))

/-- Model of `int(d.get("size", "0kb").lower().rstrip("kib"))`, `none` on
`ValueError`. -/
def monitorSize (line : List Char) : Option Int :=
  parsePyInt (rstripKib ((dictGet (monitorDict line) ("size".toList) ("0kb".toList)).map pyLowerChar))

/-- Model of `parse_ffmpeg_time(d.get("time", "00:00:00"))`, `none` on the
exceptions that call can raise. -/
def monitorTime (line : List Char) : Option ℚ :=
  parse_ffmpeg_timeL (dictGet (monitorDict line) ("time".toList) ("00:00:00".toList))

/-- One carriage-return-terminated update applied by `Transcoder.monitor`:
assign `progress_bytes = int(...) * 1024` followed by
`progress_seconds = parse_ffmpeg_time(...)`.  The flag is false when a parse
raises; the returned state then reflects the assignments already executed
(the bytes are written before the time is parsed). -/
def monitorStepL (prev : Progress) (line : List Char) : Progress × Bool :=
  match monitorSize line with
  | none => (prev, false)
  | some n =>
    let p1 : Progress := { prev with progress_bytes := n * 1024 }
    match monitorTime line with
    | none => (p1, false)
    | some t => ({ p1 with progress_seconds := t }, true)

def monitorStep (prev : Progress) (line : String) : Progress × Bool :=
  monitorStepL prev line.toList

/-! ### `main.py`: `Transcoder.wait_for_byte` -/

/-- Model of `self.source_fn.lower().split(".")[-1]`. -/
def sourceExt (fn : String) : List Char :=
  (splitOnChar '.' (fn.toList.map pyLowerChar)).getLastD []

/-- The state of the transcoder observed at one evaluation of a loop
condition inside `wait_for_byte` (the monitor thread mutates `done` and
`progress_bytes` between polls; `source_fn` never changes). -/
structure WaitObs where
  done : Bool
  progress_bytes : Int
deriving DecidableEq

/-- The mp4-branch loop `while offset > self.progress_bytes + buffer`:
given the successive observed byte counters, the index of the first poll at
which the loop exits (`none` when it is still blocked at the end of the
observed trace). -/
def waitPollsMp4 (offset buffer : Int) : List Int → Option Nat
  | [] => none
  | pb :: rest =>
    if offset > pb + buffer then (waitPollsMp4 offset buffer rest).map (fun k => k + 1)
    else some 0

/-- The other-container loop `while not self.done`: index of the first poll
at which `done` is observed. -/
def waitPollsDone : List Bool → Option Nat
  | [] => none
  | d :: rest =>
    if d then some 0 else (waitPollsDone rest).map (fun k => k + 1)

/-- The default `buffer` argument of `wait_for_byte`. -/
def default_buffer : Int := 128 * 1024 * 1024

/-- Model of `Transcoder.wait_for_byte`: return `some k` when the call returns after
`k` sleeps, given the entry state `st0` and the states observed at the
subsequent loop-condition evaluations; `none` when it is still blocked after
the whole observed trace.  `done` is checked once at entry; the mp4 branch
then polls only the byte counter, the other branch polls only `done`. -/
def wait_for_byte (source_fn : String) (offset buffer : Int)
    (st0 : WaitObs) (polls : List WaitObs) : Option Nat :=
  if st0.done then some 0
  else if sourceExt source_fn = "mp4".toList then
    waitPollsMp4 offset buffer ((st0 :: polls).map (fun st => st.progress_bytes))
  else
    waitPollsDone ((st0 :: polls).map (fun st => st.done))

/-- Modelled from the spec's words, for comparison with `wait_for_byte`:
the condition under which the spec says a poll may end the wait — the job
has completed, or (for an mp4 source) `bytesReady >= offset + buffer`. -/
def specWaitMayReturn (source_fn : String) (offset buffer : Int) (st : WaitObs) : Bool :=
  st.done ||
  (if sourceExt source_fn = "mp4".toList
   then decide (st.progress_bytes ≥ offset + buffer)
   else st.done)

/-! ### `main.py`: `Transcoder.destroy` -/

/-- The state acted on by `destroy`: the subprocess handle (`none` when no
process was started; `some r` with `r` true while `poll()` is `None`), the
temp output path, and the set of files present on disk. -/
structure DestroyState where
  p : Option Bool
  trans_fn : Option String
  files : List String
deriving DecidableEq

/-- Model of `os.remove`: paths on disk are unique, so removal is a filter. -/
def removeFile (files : List String) (f : String) : List String :=
  files.filter (fun g => !(g == f))

/-- Model of `Transcoder.destroy`: terminate the subprocess if it exists and is still
running, then delete the temp output file if it exists on disk. -/
def destroy (s : DestroyState) : DestroyState :=
  let p := match s.p with
    | some true => some false
    | x => x
  let files := match s.trans_fn with
    | some f => if f ∈ s.files then removeFile s.files f else s.files
    | none => s.files
  { p := p, trans_fn := s.trans_fn, files := files }

/-! ## Theorems -/

/-- Case helper: a malformed size aborts the update, keeping the state. -/
theorem monitorStepL_size_none (prev : Progress) (line : List Char)
    (hs : monitorSize line = none) : monitorStepL prev line = (prev, false) := by
  unfold monitorStepL
  rw [hs]

/-- Case helper: a parsed size followed by a malformed time aborts after the
byte assignment. -/
theorem monitorStepL_time_none (prev : Progress) (line : List Char) (n : Int)
    (hs : monitorSize line = some n) (ht : monitorTime line = none) :
    monitorStepL prev line = (⟨n * 1024, prev.progress_seconds⟩, false) := by
  unfold monitorStepL
  rw [hs, ht]

/-- Case helper: when both fields of an update parse, the update overwrites
both counters. -/
theorem monitorStepL_some (prev : Progress) (line : List Char) (n : Int) (t : ℚ)
    (hs : monitorSize line = some n) (ht : monitorTime line = some t) :
    monitorStepL prev line = (⟨n * 1024, t⟩, true) := by
  unfold monitorStepL
  rw [hs, ht]

/-- Evaluation helper: when both fields of an update parse, the update
overwrites both counters (with the time value restated, since the parsed
rational is not in normal form). -/
theorem monitorStep_eval (prev : Progress) (line : String) (n : Int) (t0 t : ℚ)
    (hs : monitorSize line.toList = some n)
    (ht : monitorTime line.toList = some t0) (he : t0 = t) :
    monitorStep prev line = (⟨n * 1024, t⟩, true) := by
  rw [he] at ht
  exact monitorStepL_some prev line.toList n t hs ht

/-- C1: selecting a file probed as an `avi` container with an h264 video
stream and an aac audio stream, on a device with neither H.265 nor AC-3
support, does NOT give the claimed plan `(needsContainerChange,
needsVideoReencode, needsAudioReencode) = (true, false, false)`: the code
re-encodes the audio because the container is not an audio-only extension. -/
theorem c1_plan_counterexample :
    ¬((transcode_container "avi",
       transcode_video "cast" (get_device "X" "Y").h265 "h264",
       transcode_audio "avi" (get_device "X" "Y").ac3 (some ⟨"0:2", "aac", 2⟩)) =
      (true, false, false)) := by decide

/-- C1 (amended): for that file and device the computed plan is
`needsContainerChange = true`, `needsVideoReencode = false`,
`needsAudioReencode = true`: the video track is stream-copied and the audio
track re-encoded to mp3 (at 256k) into the mp4 output, as the generated
ffmpeg command shows. -/
theorem c1_plan_amended :
    transcode_container "avi" = true ∧
    transcode_video "cast" (get_device "X" "Y").h265 "h264" = false ∧
    transcode_audio "avi" (get_device "X" "Y").ac3 (some ⟨"0:2", "aac", 2⟩) = true ∧
    transcode_cmd "movie.avi" "0:0" (some ⟨"0:2", "aac", 2⟩) (get_device "X" "Y").ac3
        true false "tmp.mp4" =
      ["ffmpeg", "-i", "movie.avi", "-map", "0:0", "-map", "0:2", "-c:a", "mp3",
       "-b:a", "256k", "-c:v", "copy", "tmp.mp4"] := by decide

/-- C2: for every device H.265 capability, cast type and video codec
string, no video re-encode is needed iff the codec is `h264`, or the device
supports H.265, is not audio-only, and the codec is `h265` or `hevc`. -/
theorem c2_video_reencode_iff (device_h265 : Bool) (cast_type video_codec : String) :
    transcode_video cast_type device_h265 video_codec = false ↔
      (video_codec = "h264" ∨
        (device_h265 = true ∧ cast_type ≠ "audio" ∧
          (video_codec = "h265" ∨ video_codec = "hevc"))) := by
  unfold transcode_video can_play_video_codec
  by_cases ha : cast_type = "audio"
  · cases device_h265 <;> simp [ha]
  · cases device_h265
    · simp [ha]
    · simp [ha]
      tauto

/-- C4: parsing the carriage-return-terminated progress update
`frame=92578 fps=3937 q=-1.0 size= 1142542kB time=01:04:21.14
bitrate=2424.1kbits/s speed= 164x` sets `progress_bytes` to `1142542*1024`
and `progress_seconds` to `3861.14 = 1*3600 + 4*60 + 21.14`. -/
theorem c4_progress_parse :
    monitorStep ⟨0, 0⟩
        "frame=92578 fps=3937 q=-1.0 size= 1142542kB time=01:04:21.14 bitrate=2424.1kbits/s speed= 164x\r" =
      (⟨1142542 * 1024, 386114 / 100⟩, true) := by
  refine monitorStep_eval _ _ 1142542
    (((1 : Nat) : ℚ) * 60 * 60 + ((4 : Nat) : ℚ) * 60 +
      (((21 : Nat) : ℚ) + ((14 : Nat) : ℚ) / (10 : ℚ) ^ (2 : Nat)))
    (386114 / 100) (by decide) rfl ?_
  push_cast
  norm_num

/-- C5: `progress_bytes` and `progress_seconds` are NOT monotone across
update sequences: after an update reporting `size= 100kB time=00:00:10`, a
well-formed update lacking both fields drives both counters back down
(bytes to `0*1024`, seconds to `00:00:00`). -/
theorem c5_monotonic_counterexample :
    (monitorStep (monitorStep ⟨0, 0⟩ "size= 100kB time=00:00:10\r").1 "frame=2\r").1.progress_bytes <
      (monitorStep ⟨0, 0⟩ "size= 100kB time=00:00:10\r").1.progress_bytes ∧
    (monitorStep (monitorStep ⟨0, 0⟩ "size= 100kB time=00:00:10\r").1 "frame=2\r").1.progress_seconds <
      (monitorStep ⟨0, 0⟩ "size= 100kB time=00:00:10\r").1.progress_seconds := by
  have h1 : monitorStep ⟨0, 0⟩ "size= 100kB time=00:00:10\r" = (⟨102400, 10⟩, true) := by
    refine monitorStep_eval _ _ 100
      (((0 : Nat) : ℚ) * 60 * 60 + ((0 : Nat) : ℚ) * 60 + ((10 : Nat) : ℚ))
      10 (by decide) rfl ?_
    push_cast
    norm_num
  have h2 : monitorStep ⟨102400, 10⟩ "frame=2\r" = (⟨0, 0⟩, true) := by
    refine monitorStep_eval _ _ 0
      (((0 : Nat) : ℚ) * 60 * 60 + ((0 : Nat) : ℚ) * 60 + ((0 : Nat) : ℚ))
      0 (by decide) rfl ?_
    push_cast
    norm_num
  simp only [h1, h2]
  exact ⟨by norm_num, by norm_num⟩

/-- C5 (amended): each successfully parsed update overwrites
`progress_bytes`/`progress_seconds` with values computed solely from the
update text, independent of the previous state — so the counters follow the
parsed telemetry values exactly (monotone only when those are), and change
only by an update or by replacing the job. -/
theorem c5_overwrite_amended (p q : Progress) (line : String)
    (h : (monitorStep p line).2 = true) :
    monitorStep q line = monitorStep p line := by
  rcases hs : monitorSize line.toList with _ | n
  · rw [show monitorStep p line = (p, false) from monitorStepL_size_none p _ hs] at h
    simp at h
  · rcases ht : monitorTime line.toList with _ | t
    · rw [show monitorStep p line = (⟨n * 1024, p.progress_seconds⟩, false) from
        monitorStepL_time_none p _ n hs ht] at h
      simp at h
    · rw [show monitorStep q line = (⟨n * 1024, t⟩, true) from monitorStepL_some q _ n t hs ht,
        show monitorStep p line = (⟨n * 1024, t⟩, true) from monitorStepL_some p _ n t hs ht]

/-- C5 (amended) witness: a concrete successful update yields the same
result from two different previous states. -/
theorem c5_overwrite_amended_witness :
    monitorStep ⟨7, 7⟩ "size=1kB time=00:00:01\r" =
      monitorStep ⟨0, 0⟩ "size=1kB time=00:00:01\r" :=
  c5_overwrite_amended ⟨0, 0⟩ ⟨7, 7⟩ "size=1kB time=00:00:01\r" (by decide)

/-- C6: an update whose `size` field is missing does NOT keep the previous
`progress_bytes` — it resets it to `0` (the `0kb` default) — and an update
whose `size` field is malformed aborts the parse (the assignment raises)
instead of carrying on. -/
theorem c6_defaults_counterexample :
    (monitorStep ⟨102400, 10⟩ "frame=2\r").1.progress_bytes = 0 ∧
    (monitorStep ⟨102400, 10⟩ "frame=2\r").1.progress_bytes ≠ 102400 ∧
    (monitorStep ⟨102400, 10⟩ "size=xyz time=00:00:01\r").2 = false := by decide

/-- C6 (amended): for any previous state, an update missing the `size`
field sets `progress_bytes` to zero (and a missing `time` field sets
`progress_seconds` to zero, via the `00:00:00` default); a malformed `size`
field makes the update abort, leaving the whole state unchanged. -/
theorem c6_defaults_amended (prev : Progress) :
    monitorStep prev "frame=2\r" = (⟨0, 0⟩, true) ∧
    monitorStep prev "size=xyz time=00:00:01\r" = (prev, false) ∧
    monitorStep prev "size= 5kB\r" = (⟨5 * 1024, 0⟩, true) := by
  refine ⟨?_, ?_, ?_⟩
  · refine monitorStep_eval _ _ 0
      (((0 : Nat) : ℚ) * 60 * 60 + ((0 : Nat) : ℚ) * 60 + ((0 : Nat) : ℚ))
      0 (by decide) rfl ?_
    push_cast
    norm_num
  · unfold monitorStep monitorStepL
    rw [show monitorSize ("size=xyz time=00:00:01\r".toList) = none from by decide]
  · refine monitorStep_eval _ _ 5
      (((0 : Nat) : ℚ) * 60 * 60 + ((0 : Nat) : ℚ) * 60 + ((0 : Nat) : ℚ))
      0 (by decide) rfl ?_
    push_cast
    norm_num

/-- C7: in the generated ffmpeg command, the argument following `-c:a` is
`ac3` when audio is re-encoded, the device supports AC-3 and the selected
audio stream has more than 2 channels; `mp3` when audio is re-encoded
otherwise; and `copy` when no audio re-encode is required. -/
theorem c7_audio_codec_choice (device_ac3 ta tv : Bool) (s : AudioStream)
    (source_fn video_index trans_fn : String) :
    (transcode_cmd source_fn video_index (some s) device_ac3 ta tv trans_fn)[8]? =
      some (if ta = true then
              (if device_ac3 = true ∧ s.channels > 2 then "ac3" else "mp3")
            else "copy") := by
  cases ta <;> cases device_ac3 <;> by_cases hc : s.channels > 2 <;>
    simp [transcode_cmd, transcode_audio_to, hc]

/-- C8: when none of the three re-encode flags is set, the job is created
already completed — `done` is true at construction, the done-callback has
been invoked synchronously — its `fn` property is the unmodified source
path, and no temporary output exists. -/
theorem c8_passthrough (cast_type manufacturer model_name container video_codec : String)
    (audio_stream : Option AudioStream) (source_fn tmp_fn : String)
    (h1 : transcode_container container = false)
    (h2 : transcode_video cast_type (get_device manufacturer model_name).h265 video_codec = false)
    (h3 : transcode_audio container (get_device manufacturer model_name).ac3 audio_stream = false) :
    transcoderInit cast_type manufacturer model_name container video_codec audio_stream
        source_fn tmp_fn =
      { done := true, callback_invoked := true, fn := source_fn, trans_fn := none } := by
  simp only [transcoderInit, h1, h2, h3]
  rfl

/-- C8 witness: a playable `wav` file with an `mp3` audio track on an
unknown device is passed through untouched. -/
theorem c8_passthrough_witness :
    transcoderInit "cast" "X" "Y" "wav" "h264" (some ⟨"0:1", "mp3", 2⟩) "song.wav" "tmp.mp4" =
      { done := true, callback_invoked := true, fn := "song.wav", trans_fn := none } :=
  c8_passthrough "cast" "X" "Y" "wav" "h264" (some ⟨"0:1", "mp3", 2⟩) "song.wav" "tmp.mp4"
    (by decide) (by decide) (by decide)

/-- Helper: a removed file is gone. -/
theorem not_mem_removeFile (l : List String) (f : String) : f ∉ removeFile l f := by
  simp [removeFile]

/-- C9: `destroy` is idempotent, after it the temp output file (if any) is
absent from disk, and on a job whose subprocess has already exited it
leaves the process state untouched (while still removing a lingering
output file). -/
theorem c9_destroy_idempotent (s : DestroyState) :
    destroy (destroy s) = destroy s ∧
    (∀ f, s.trans_fn = some f → f ∉ (destroy s).files) ∧
    (s.p = some false → (destroy s).p = some false) := by
  rcases s with ⟨p, tfn, files⟩
  refine ⟨?_, ?_, ?_⟩
  · unfold destroy
    rcases tfn with _ | f
    · rcases p with _ | b
      · rfl
      · cases b <;> rfl
    · by_cases hf : f ∈ files
      · simp only [hf, if_true]
        have hout : f ∉ removeFile files f := not_mem_removeFile files f
        rcases p with _ | b
        · simp [hout]
        · cases b <;> simp [hout]
      · simp only [hf, if_false]
        rcases p with _ | b
        · simp [hf]
        · cases b <;> simp [hf]
  · intro f hf
    cases hf
    unfold destroy
    by_cases hmem : f ∈ files
    · simpa [hmem] using not_mem_removeFile files f
    · simp [hmem]
  · intro hp
    cases hp
    rfl

/-- C9 witness: destroying an already-exited job twice equals destroying it
once, removes its lingering output file, and leaves the process alone. -/
theorem c9_destroy_idempotent_witness :
    destroy (destroy ⟨some false, some "t.mp4", ["t.mp4", "x.txt"]⟩) =
        destroy ⟨some false, some "t.mp4", ["t.mp4", "x.txt"]⟩ ∧
    "t.mp4" ∉ (destroy ⟨some false, some "t.mp4", ["t.mp4", "x.txt"]⟩).files ∧
    (destroy ⟨some false, some "t.mp4", ["t.mp4", "x.txt"]⟩).p = some false :=
  ⟨(c9_destroy_idempotent ⟨some false, some "t.mp4", ["t.mp4", "x.txt"]⟩).1,
   (c9_destroy_idempotent ⟨some false, some "t.mp4", ["t.mp4", "x.txt"]⟩).2.1 "t.mp4" rfl,
   (c9_destroy_idempotent ⟨some false, some "t.mp4", ["t.mp4", "x.txt"]⟩).2.2 rfl⟩

/-- C10: `get_device` returns a device with both capabilities off for every
(manufacturer, model_name) pair outside the built-in table, and the
recorded device for a pair inside it. -/
theorem c10_get_device (m n : String) :
    ((∀ d ∈ _devices, ¬(d.manufacturer = m ∧ d.model_name = n)) →
      (get_device m n).h265 = false ∧ (get_device m n).ac3 = false) ∧
    (∀ d ∈ _devices, d.manufacturer = m → d.model_name = n → get_device m n = d) := by
  constructor
  · intro h
    have hf : _devices.find? (fun d => d.manufacturer == m && d.model_name == n) = none := by
      apply List.find?_eq_none.mpr
      intro d hd
      have hne := h d hd
      simp only [Bool.and_eq_true, beq_iff_eq]
      tauto
    unfold get_device
    rw [hf]
    exact ⟨rfl, rfl⟩
  · intro d hd h1 h2
    subst h1
    subst h2
    simp only [_devices, List.mem_cons, List.not_mem_nil, or_false] at hd
    rcases hd with h | h | h | h <;> subst h <;> rfl

/-- C10 witness: a pair in the table gets its recorded capabilities, a pair
outside it gets both capabilities off. -/
theorem c10_get_device_witness :
    get_device "VIZIO" "P75-F1" = ⟨"VIZIO", "P75-F1", true, true⟩ ∧
    (get_device "Nobody" "Nothing").h265 = false ∧
    (get_device "Nobody" "Nothing").ac3 = false :=
  ⟨(c10_get_device "VIZIO" "P75-F1").2 ⟨"VIZIO", "P75-F1", true, true⟩ (by decide) rfl rfl,
   ((c10_get_device "Nobody" "Nothing").1 (by decide)).1,
   ((c10_get_device "Nobody" "Nothing").1 (by decide)).2⟩

/-- Helper: `getD` of the byte-counter projection through `map`. -/
theorem getD_map_pb : ∀ (l : List WaitObs) (k : Nat), k < l.length →
    (l.map (fun st => st.progress_bytes)).getD k 0 = (l.getD k ⟨false, 0⟩).progress_bytes
  | [], k, h => absurd h (by simp)
  | _ :: _, 0, _ => rfl
  | _ :: l, k + 1, h => getD_map_pb l k (Nat.lt_of_succ_lt_succ h)

/-- Helper: `getD` of the done-flag projection through `map`. -/
theorem getD_map_done : ∀ (l : List WaitObs) (k : Nat), k < l.length →
    (l.map (fun st => st.done)).getD k false = (l.getD k ⟨false, 0⟩).done
  | [], k, h => absurd h (by simp)
  | _ :: _, 0, _ => rfl
  | _ :: l, k + 1, h => getD_map_done l k (Nat.lt_of_succ_lt_succ h)

/-- Characterization of the mp4-branch polling loop: it returns at poll `k`
exactly when `k` is the first index whose observed byte counter satisfies
`offset ≤ bytes + buffer`. -/
theorem waitPollsMp4_spec (offset buffer : Int) :
    ∀ (l : List Int) (k : Nat),
      waitPollsMp4 offset buffer l = some k ↔
        (k < l.length ∧ offset ≤ l.getD k 0 + buffer ∧
          ∀ j, j < k → offset > l.getD j 0 + buffer) := by
  intro l
  induction l with
  | nil => intro k; simp [waitPollsMp4]
  | cons pb rest ih =>
    intro k
    simp only [waitPollsMp4]
    by_cases h : offset > pb + buffer
    · rw [if_pos h]
      cases k with
      | zero =>
        simp only [Option.map_eq_some']
        constructor
        · rintro ⟨k', -, hk⟩
          omega
        · rintro ⟨-, h2, -⟩
          rw [List.getD_cons_zero] at h2
          omega
      | succ k' =>
        simp only [Option.map_eq_some']
        constructor
        · rintro ⟨k'', hk'', he⟩
          have hkk : k'' = k' := by omega
          rw [hkk] at hk''
          obtain ⟨hl, hle, hgt⟩ := (ih k').1 hk''
          refine ⟨by simpa using Nat.succ_lt_succ hl, by simpa using hle, ?_⟩
          intro j hj
          cases j with
          | zero => simpa using h
          | succ j' =>
            have := hgt j' (Nat.lt_of_succ_lt_succ hj)
            simpa using this
        · rintro ⟨hl, hle, hgt⟩
          refine ⟨k', (ih k').2 ⟨?_, ?_, ?_⟩, rfl⟩
          · exact Nat.lt_of_succ_lt_succ (by simpa using hl)
          · simpa using hle
          · intro j hj
            have := hgt (j + 1) (Nat.succ_lt_succ hj)
            simpa using this
    · rw [if_neg h]
      constructor
      · intro hk
        have hk0 : k = 0 := by
          have := Option.some.inj hk
          omega
        subst hk0
        refine ⟨by simp, ?_, by omega⟩
        rw [List.getD_cons_zero]
        omega
      · rintro ⟨hl, hle, hgt⟩
        have hk0 : k = 0 := by
          by_contra hne
          have h0 := hgt 0 (Nat.pos_of_ne_zero hne)
          rw [List.getD_cons_zero] at h0
          omega
        subst hk0
        rfl

/-- Characterization of the non-mp4 polling loop: it returns at poll `k`
exactly when `k` is the first index at which `done` is observed. -/
theorem waitPollsDone_spec :
    ∀ (l : List Bool) (k : Nat),
      waitPollsDone l = some k ↔
        (k < l.length ∧ l.getD k false = true ∧
          ∀ j, j < k → l.getD j false = false) := by
  intro l
  induction l with
  | nil => intro k; simp [waitPollsDone]
  | cons d rest ih =>
    intro k
    simp only [waitPollsDone]
    cases d with
    | true =>
      rw [if_pos rfl]
      constructor
      · intro hk
        have hk0 : k = 0 := by
          have := Option.some.inj hk
          omega
        subst hk0
        exact ⟨by simp, rfl, by omega⟩
      · rintro ⟨hl, hle, hgt⟩
        have hk0 : k = 0 := by
          by_contra hne
          have h0 := hgt 0 (Nat.pos_of_ne_zero hne)
          rw [List.getD_cons_zero] at h0
          simp at h0
        subst hk0
        rfl
    | false =>
      rw [if_neg (by simp)]
      cases k with
      | zero =>
        simp only [Option.map_eq_some']
        constructor
        · rintro ⟨k', -, hk⟩
          omega
        · rintro ⟨-, h2, -⟩
          rw [List.getD_cons_zero] at h2
          exact absurd h2 Bool.false_ne_true
      | succ k' =>
        simp only [Option.map_eq_some']
        constructor
        · rintro ⟨k'', hk'', he⟩
          have hkk : k'' = k' := by omega
          rw [hkk] at hk''
          obtain ⟨hl, hle, hgt⟩ := (ih k').1 hk''
          refine ⟨by simpa using Nat.succ_lt_succ hl, by simpa using hle, ?_⟩
          intro j hj
          cases j with
          | zero => rfl
          | succ j' =>
            have := hgt j' (Nat.lt_of_succ_lt_succ hj)
            simpa using this
        · rintro ⟨hl, hle, hgt⟩
          refine ⟨k', (ih k').2 ⟨?_, ?_, ?_⟩, rfl⟩
          · exact Nat.lt_of_succ_lt_succ (by simpa using hl)
          · simpa using hle
          · intro j hj
            have := hgt (j + 1) (Nat.succ_lt_succ hj)
            simpa using this

/-- C3: `wait_for_byte` on an mp4 source returns immediately at a state the
spec's condition says it must still block in: with `bytesReady = 0`, a
not-yet-completed job and `offset = 1024`, the code returns at once
(because `offset ≤ bytesReady + buffer`), while the spec's condition
`completed ∨ bytesReady ≥ offset + buffer` is false. -/
theorem c3_wait_counterexample :
    wait_for_byte "movie.mp4" 1024 default_buffer ⟨false, 0⟩ [] = some 0 ∧
    specWaitMayReturn "movie.mp4" 1024 default_buffer ⟨false, 0⟩ = false :=
  ⟨by decide, by decide⟩

/-- C3 (amended): `wait_for_byte` returns immediately when the job is
already completed at entry; for an mp4 source it blocks exactly until the
first poll observing `offset ≤ bytesReady + buffer` (the completion flag is
not re-checked in that loop); for any other source it blocks exactly until
the first poll observing the completion flag. -/
theorem c3_wait_amended (source_fn : String) (offset buffer : Int)
    (st0 : WaitObs) (polls : List WaitObs) :
    (st0.done = true → wait_for_byte source_fn offset buffer st0 polls = some 0) ∧
    (st0.done = false → sourceExt source_fn = "mp4".toList →
      ∀ k, wait_for_byte source_fn offset buffer st0 polls = some k ↔
        (k < (st0 :: polls).length ∧
          offset ≤ ((st0 :: polls).getD k ⟨false, 0⟩).progress_bytes + buffer ∧
          ∀ j, j < k →
            offset > ((st0 :: polls).getD j ⟨false, 0⟩).progress_bytes + buffer)) ∧
    (st0.done = false → sourceExt source_fn ≠ "mp4".toList →
      ∀ k, wait_for_byte source_fn offset buffer st0 polls = some k ↔
        (k < (st0 :: polls).length ∧
          ((st0 :: polls).getD k ⟨false, 0⟩).done = true ∧
          ∀ j, j < k → ((st0 :: polls).getD j ⟨false, 0⟩).done = false)) := by
  refine ⟨?_, ?_, ?_⟩
  · intro hd
    simp [wait_for_byte, hd]
  · intro hd hext k
    have e : wait_for_byte source_fn offset buffer st0 polls =
        waitPollsMp4 offset buffer ((st0 :: polls).map (fun st => st.progress_bytes)) := by
      unfold wait_for_byte
      rw [if_neg (by simp [hd]), if_pos hext]
    rw [e, waitPollsMp4_spec]
    simp only [List.length_map]
    constructor
    · rintro ⟨hl, hle, hgt⟩
      refine ⟨hl, ?_, fun j hj => ?_⟩
      · rw [← getD_map_pb (st0 :: polls) k hl]
        exact hle
      · rw [← getD_map_pb (st0 :: polls) j (Nat.lt_trans hj hl)]
        exact hgt j hj
    · rintro ⟨hl, hle, hgt⟩
      refine ⟨hl, ?_, fun j hj => ?_⟩
      · rw [getD_map_pb (st0 :: polls) k hl]
        exact hle
      · rw [getD_map_pb (st0 :: polls) j (Nat.lt_trans hj hl)]
        exact hgt j hj
  · intro hd hext k
    have e : wait_for_byte source_fn offset buffer st0 polls =
        waitPollsDone ((st0 :: polls).map (fun st => st.done)) := by
      unfold wait_for_byte
      rw [if_neg (by simp [hd]), if_neg hext]
    rw [e, waitPollsDone_spec]
    simp only [List.length_map]
    constructor
    · rintro ⟨hl, hle, hgt⟩
      refine ⟨hl, ?_, fun j hj => ?_⟩
      · rw [← getD_map_done (st0 :: polls) k hl]
        exact hle
      · rw [← getD_map_done (st0 :: polls) j (Nat.lt_trans hj hl)]
        exact hgt j hj
    · rintro ⟨hl, hle, hgt⟩
      refine ⟨hl, ?_, fun j hj => ?_⟩
      · rw [getD_map_done (st0 :: polls) k hl]
        exact hle
      · rw [getD_map_done (st0 :: polls) j (Nat.lt_trans hj hl)]
        exact hgt j hj

/-- C3 (amended) witness: an already-completed job returns immediately. -/
theorem c3_wait_amended_witness :
    wait_for_byte "a.mkv" 7 default_buffer ⟨true, 0⟩ [] = some 0 :=
  (c3_wait_amended "a.mkv" 7 default_buffer ⟨true, 0⟩ []).1 rfl

end Gnomecast
